import Mathlib

/-!
Verification of the Indico editorial-workflow core
(`indico/modules/events/editing/models/editable.py`).

The embedding models an `Editable` as a record holding its type, optional
assigned editor (a user id), its revision log, and the injected collaborator
capabilities (`Event.can_manage`, `Contribution.can_submit_proceedings`,
`Contribution.is_user_associated`), the per-(event, type) settings flags and
the configured review conditions. Users are represented by their ids
(`Nat`); permission lookups are arbitrary boolean-valued functions, so the
theorems quantify over every possible permission assignment.

Python code that can raise is modelled with `Option`: in particular
`review_conditions_valid` returns `none` exactly when the Python property
would raise `AttributeError` by dereferencing a `None`
`latest_revision_with_files`.
-/

/-- Editable types (class `EditableType`): paper, slides, poster. -/
inductive EditableType
  | paper
  | slides
  | poster
deriving DecidableEq

/-- Management permissions passed to `Event.can_manage`; `general` stands for
the call without a `permission` argument, the others for the string
permissions used in `editable.py` (the three type-specific editor
permissions come from `EditableType.__editor_permissions__`). -/
inductive Permission
  | general
  | editing_manager
  | paper_editing
  | slides_editing
  | poster_editing
deriving DecidableEq

/-- Modelled from the spec: the `RevisionType` enum lives in `revisions.py`,
which is not part of the sources; the spec (§3) lists these variants, and all
ten names also appear literally in the state-mapping table of
`_mappers_configured` in `editable.py`. -/
inductive RevisionType
  | new
  | ready_for_review
  | needs_submitter_confirmation
  | changes_acceptance
  | changes_rejection
  | needs_submitter_changes
  | acceptance
  | rejection
  | replacement
  | reset
deriving DecidableEq

/-- Derived editable states (class `EditableState` in `editable.py`). -/
inductive EditableState
  | new
  | ready_for_review
  | needs_submitter_confirmation
  | needs_submitter_changes
  | accepted
  | rejected
  | accepted_submitter
deriving DecidableEq

/-- Modelled from the spec: an attached revision file carries a
`file_type_id` (`EditingRevisionFile` in `revision_files.py`, not part of
the sources). -/
structure EditingRevisionFile where
  file_type_id : Nat
deriving DecidableEq

/-- Modelled from the spec: a revision record (`EditingRevision` in
`revisions.py`, not part of the sources): a `type` tag, an `is_undone` flag
and the attached files. Creation timestamps are represented by the position
in `Editable.revisions` (oldest first). -/
structure EditingRevision where
  type : RevisionType
  is_undone : Bool
  files : List EditingRevisionFile
deriving DecidableEq

/-- The event collaborator: only its `can_manage(user, permission)`
capability is consulted by the modelled code. -/
structure Event where
  can_manage : Nat → Permission → Bool

/-- The contribution collaborator: `can_submit_proceedings(user)` and
`is_user_associated(user, check_abstract=True)` (the file always passes
`check_abstract=True`, so the flag is baked in). -/
structure Contribution where
  can_submit_proceedings : Nat → Bool
  is_user_associated : Nat → Bool

/-- Modelled from the spec: the boolean flags of
`editable_type_settings[type].get(event, key)` used by `editable.py`.
The settings store itself is not part of the sources; the spec (§3) lists
the per-(event, type) flags. -/
structure TypeSettings where
  editing_enabled : Bool
  self_assign_allowed : Bool
  anonymous_team : Bool

/-- The `Editable` aggregate. `editor` is the optional assigned editor's
user id. `revisions` is the revision log; modelled from the spec (§4.1), the
list is in creation order, oldest first (the ordering of the `revisions`
relationship is declared in `revisions.py`, outside the sources).
`review_conditions` models the `EditingReviewCondition` store for this
event and type: each entry is one required file-type-id set. -/
structure Editable where
  type : EditableType
  editor : Option Nat
  revisions : List EditingRevision
  event : Event
  contribution : Contribution
  settings : TypeSettings
  review_conditions : List (Finset Nat)

/-- `EditableType.editor_permission` (from `__editor_permissions__`). -/
def EditableType.editor_permission : EditableType → Permission
  | .paper => .paper_editing
  | .slides => .slides_editing
  | .poster => .poster_editing

/-- `Editable.valid_revisions`: the revisions that are not undone. -/
def Editable.valid_revisions (e : Editable) : List EditingRevision :=
  e.revisions.filter (fun r => !r.is_undone)

/-- `Editable.latest_revision`: `valid_revisions[-1]` or `None`. -/
def Editable.latest_revision (e : Editable) : Option EditingRevision :=
  e.valid_revisions.getLast?

/-- `Editable.latest_revision_with_files`: the query filters out undone
revisions, joins `EditingRevisionFile` (so only revisions with at least one
file qualify), orders by `created_dt` descending and takes the first. -/
def Editable.latest_revision_with_files (e : Editable) : Option EditingRevision :=
  e.revisions.reverse.find? (fun r => !r.is_undone && !r.files.isEmpty)

/-- `Editable._has_general_editor_permissions`. -/
def Editable.has_general_editor_permissions (e : Editable) (user : Nat) : Bool :=
  e.event.can_manage user .editing_manager ||
  e.event.can_manage user e.type.editor_permission

/-- `Editable.can_see_timeline`. -/
def Editable.can_see_timeline (e : Editable) (user : Nat) : Bool :=
  e.has_general_editor_permissions user ||
  e.contribution.can_submit_proceedings user ||
  e.contribution.is_user_associated user

/-- `Editable.can_perform_submitter_actions`. -/
def Editable.can_perform_submitter_actions (e : Editable) (user : Nat) : Bool :=
  if !(e.can_see_timeline user) then
    false
  else
    e.contribution.can_submit_proceedings user

/-- `Editable.can_perform_editor_actions`. -/
def Editable.can_perform_editor_actions (e : Editable) (user : Nat) : Bool :=
  if !(e.can_see_timeline user) then
    false
  else if e.editor == some user && e.event.can_manage user .editing_manager then
    true
  else if !(e.settings.editing_enabled) then
    false
  else if e.editor == some user && e.event.can_manage user e.type.editor_permission then
    true
  else
    false

/-- `Editable.can_see_editor_names(user, actor)`: in Python, when `actor` is
given, the term `actor and not self.can_see_editor_names(actor)` recurses
once with the actor as the user and no further actor. -/
def Editable.can_see_editor_names (e : Editable) (user : Nat) : Option Nat → Bool
  | some a =>
    !(e.settings.anonymous_team) ||
    !(e.can_see_editor_names a none) ||
    e.has_general_editor_permissions user
  | none =>
    !(e.settings.anonymous_team) ||
    e.has_general_editor_permissions user
termination_by o => o.isSome.toNat
decreasing_by simp

/-- `Editable.can_comment`. -/
def Editable.can_comment (e : Editable) (user : Nat) : Bool :=
  e.event.can_manage user e.type.editor_permission ||
  e.event.can_manage user .editing_manager ||
  e.contribution.is_user_associated user

/-- `Editable.can_unassign`. -/
def Editable.can_unassign (e : Editable) (user : Nat) : Bool :=
  e.event.can_manage user .editing_manager ||
  (e.editor == some user &&
   e.event.can_manage user e.type.editor_permission &&
   e.settings.editing_enabled &&
   e.settings.self_assign_allowed)

/-- `Editable.can_assign_self`: the guard `if self.editor and (self.editor
== user or not self.can_unassign(user))` returns `False`; otherwise the
closing boolean expression is returned. -/
def Editable.can_assign_self (e : Editable) (user : Nat) : Bool :=
  if e.editor.isSome && (e.editor == some user || !(e.can_unassign user)) then
    false
  else
    (e.event.can_manage user e.type.editor_permission &&
     e.settings.editing_enabled &&
     e.settings.self_assign_allowed) ||
    e.event.can_manage user .editing_manager

/-- `Editable.can_delete`: plain `event.can_manage(user)`. -/
def Editable.can_delete (e : Editable) (user : Nat) : Bool :=
  e.event.can_manage user .general

/-- The `db.case` dictionary of `_mappers_configured` mapping a revision
type to the derived editable state. -/
def state_cases : RevisionType → EditableState
  | .new => .new
  | .ready_for_review => .ready_for_review
  | .needs_submitter_confirmation => .needs_submitter_confirmation
  | .changes_acceptance => .accepted_submitter
  | .changes_rejection => .needs_submitter_changes
  | .needs_submitter_changes => .needs_submitter_changes
  | .acceptance => .accepted
  | .rejection => .rejected
  | .replacement => .ready_for_review
  | .reset => .ready_for_review

/-- `Editable.state` (the `column_property` of `_mappers_configured`): apply
`state_cases` to the type of the most recent non-undone revision; `NULL`
(here `none`) when no such revision exists. -/
def Editable.state (e : Editable) : Option EditableState :=
  (e.revisions.reverse.find? (fun r => !r.is_undone)).map (fun r => state_cases r.type)

/-- `Editable.review_conditions_valid`. The Python property returns `True`
when no conditions are configured; otherwise it evaluates
`self.latest_revision_with_files.files`, which raises `AttributeError` when
`latest_revision_with_files` is `None` — modelled here as `none`. -/
def Editable.review_conditions_valid (e : Editable) : Option Bool :=
  if e.review_conditions.isEmpty then
    some true
  else
    match e.latest_revision_with_files with
    | none => none
    | some rev =>
      some (e.review_conditions.any
        (fun cond => decide (cond ⊆ (rev.files.map (fun f => f.file_type_id)).toFinset)))

/-- Replace the revision log of an editable, keeping every other field. -/
def Editable.set_revisions (e : Editable) (rs : List EditingRevision) : Editable :=
  ⟨e.type, e.editor, rs, e.event, e.contribution, e.settings, e.review_conditions⟩

/-- A revision with no files. -/
def mkRev (t : RevisionType) (undone : Bool) : EditingRevision :=
  ⟨t, undone, []⟩

/-- An event granting no permission to anyone. -/
def exEvent : Event :=
  ⟨fun _ _ => false⟩

/-- A contribution associated with nobody. -/
def exContribution : Contribution :=
  ⟨fun _ => false, fun _ => false⟩

/-- Settings with every flag off. -/
def exSettings : TypeSettings :=
  ⟨false, false, false⟩

/-- The spec's undone-revision example log: `[ready_for_review,
acceptance(undone=true)]`, all other data inert. -/
def c4Example : Editable :=
  ⟨.paper, none, [mkRev .ready_for_review false, mkRev .acceptance true],
   exEvent, exContribution, exSettings, []⟩

/-- An editable with an empty revision log. -/
def c5Editable : Editable :=
  ⟨.slides, none, [], exEvent, exContribution, exSettings, []⟩

/-- An editable with one configured review condition and no revision at all,
hence no non-undone revision with files. -/
def c2Editable : Editable :=
  ⟨.paper, none, [], exEvent, exContribution, exSettings, [({1} : Finset Nat)]⟩

/-- An editable with zero configured review conditions and one revision
carrying two files. -/
def c3Editable : Editable :=
  ⟨.poster, none, [⟨.ready_for_review, false, [⟨1⟩, ⟨2⟩]⟩],
   exEvent, exContribution, exSettings, []⟩

/-- An event granting exactly the editing_manager permission to user 7. -/
def c10Event : Event :=
  ⟨fun uid perm => uid == 7 && (match perm with | .editing_manager => true | _ => false)⟩

/-- Editor 5 assigned; user 7 is an editing manager. -/
def c10Editable : Editable :=
  ⟨.paper, some 5, [], c10Event, exContribution, exSettings, []⟩

/-- No editor assigned; user 7 is an editing manager. -/
def c7Editable : Editable :=
  ⟨.paper, none, [], c10Event, exContribution, exSettings, []⟩

/-- Editor 7 assigned; user 7 is an editing manager; editing disabled. -/
def c6Editable : Editable :=
  ⟨.paper, some 7, [], c10Event, exContribution, exSettings, []⟩

/-- An event granting exactly the paper_editing permission to user 7. -/
def c6bEvent : Event :=
  ⟨fun uid perm => uid == 7 && (match perm with | .paper_editing => true | _ => false)⟩

/-- Settings with only editing_enabled on. -/
def c6bSettings : TypeSettings :=
  ⟨true, false, false⟩

/-- Editor 7 assigned; user 7 has the type's editor permission but is no
editing manager; editing enabled. -/
def c6bEditable : Editable :=
  ⟨.paper, some 7, [], c6bEvent, exContribution, c6bSettings, []⟩

/-- Settings with only anonymous_team on. -/
def c8Settings : TypeSettings :=
  ⟨false, false, true⟩

/-- Anonymous team enabled, nobody has any permission. -/
def c8Editable : Editable :=
  ⟨.paper, none, [], exEvent, exContribution, c8Settings, []⟩

/-- A contribution whose proceedings submitter is user 3. -/
def c9Contribution : Contribution :=
  ⟨fun uid => uid == 3, fun _ => false⟩

/-- An editable whose contribution lets user 3 submit proceedings. -/
def c9Editable : Editable :=
  ⟨.paper, none, [], exEvent, c9Contribution, exSettings, []⟩

theorem head?_filter_eq_find? {α : Type} (p : α → Bool) (l : List α) :
    (l.filter p).head? = l.find? p := by
  induction l with
  | nil => rfl
  | cons x xs ih =>
    cases h : p x <;> simp [List.filter_cons, List.find?_cons, h, ih]

theorem find?_reverse_eq_getLast?_filter {α : Type} (p : α → Bool) (l : List α) :
    l.reverse.find? p = (l.filter p).getLast? := by
  rw [← head?_filter_eq_find? p l.reverse, List.filter_reverse, List.head?_reverse]

/-- The derived state is the mapping applied to the latest valid revision. -/
theorem state_eq_map_latest (e : Editable) :
    e.state = e.latest_revision.map (fun r => state_cases r.type) := by
  unfold Editable.state Editable.latest_revision Editable.valid_revisions
  rw [find?_reverse_eq_getLast?_filter]

/-- C1: for every editable, the derived state is the fixed mapping applied
to the latest valid (non-undone) revision's type — in particular this holds
whenever at least one valid revision exists — and the mapping agrees with
the table: new→new, ready_for_review→ready_for_review,
needs_submitter_confirmation→needs_submitter_confirmation,
changes_acceptance→accepted_submitter,
changes_rejection→needs_submitter_changes,
needs_submitter_changes→needs_submitter_changes, acceptance→accepted,
rejection→rejected, replacement→ready_for_review, reset→ready_for_review. -/
theorem C1_state_is_mapped_latest_revision_type :
    (∀ e : Editable, e.state = e.latest_revision.map (fun r => state_cases r.type)) ∧
    state_cases .new = .new ∧
    state_cases .ready_for_review = .ready_for_review ∧
    state_cases .needs_submitter_confirmation = .needs_submitter_confirmation ∧
    state_cases .changes_acceptance = .accepted_submitter ∧
    state_cases .changes_rejection = .needs_submitter_changes ∧
    state_cases .needs_submitter_changes = .needs_submitter_changes ∧
    state_cases .acceptance = .accepted ∧
    state_cases .rejection = .rejected ∧
    state_cases .replacement = .ready_for_review ∧
    state_cases .reset = .ready_for_review :=
  ⟨state_eq_map_latest, rfl, rfl, rfl, rfl, rfl, rfl, rfl, rfl, rfl, rfl⟩

/-- C4: valid_revisions is exactly the subsequence of the revision log (in
creation order, oldest first) whose members have is_undone = false;
appending an undone revision leaves latest_revision unchanged, while
appending a valid one makes it the latest; and on the log
[ready_for_review, acceptance(undone=true)] the derived state is
ready_for_review. -/
theorem C4_valid_revisions_order_and_undone_invisible :
    (∀ e : Editable, e.valid_revisions.Sublist e.revisions ∧
      (∀ r : EditingRevision, r ∈ e.valid_revisions ↔ r ∈ e.revisions ∧ r.is_undone = false)) ∧
    (∀ (e : Editable) (r : EditingRevision),
      (e.set_revisions (e.revisions ++ [r])).latest_revision =
        if r.is_undone then e.latest_revision else some r) ∧
    c4Example.state = some .ready_for_review := by
  refine ⟨fun e => ⟨List.filter_sublist e.revisions, fun r => ?_⟩, fun e r => ?_, rfl⟩
  · simp [Editable.valid_revisions, List.mem_filter]
  · unfold Editable.latest_revision Editable.valid_revisions Editable.set_revisions
    cases h : r.is_undone <;>
      simp [List.filter_append, List.filter_cons, h, List.getLast?_concat]

/-- C5: with zero valid revisions the derived state is undefined (none) and
latest_revision is absent, while the permission predicates are insensitive
to the revision log: replacing it by any other log leaves them unchanged. -/
theorem C5_empty_log_state_none_permissions_independent (e : Editable) (u : Nat)
    (h : e.valid_revisions = []) :
    e.state = none ∧ e.latest_revision = none ∧
    (∀ rs, (e.set_revisions rs).can_see_timeline u = e.can_see_timeline u) ∧
    (∀ rs, (e.set_revisions rs).can_perform_submitter_actions u =
      e.can_perform_submitter_actions u) ∧
    (∀ rs, (e.set_revisions rs).can_perform_editor_actions u =
      e.can_perform_editor_actions u) ∧
    (∀ rs, (e.set_revisions rs).can_assign_self u = e.can_assign_self u) ∧
    (∀ rs, (e.set_revisions rs).can_unassign u = e.can_unassign u) := by
  have hlat : e.latest_revision = none := by
    unfold Editable.latest_revision
    rw [h]
    rfl
  have hst : e.state = none := by
    rw [state_eq_map_latest, hlat]
    rfl
  exact ⟨hst, hlat, fun rs => rfl, fun rs => rfl, fun rs => rfl, fun rs => rfl, fun rs => rfl⟩

/-- C5 witness: the empty-log editable evaluated concretely. -/
theorem C5_witness : c5Editable.state = none ∧ c5Editable.latest_revision = none :=
  ⟨(C5_empty_log_state_none_permissions_independent c5Editable 0 rfl).1,
   (C5_empty_log_state_none_permissions_independent c5Editable 0 rfl).2.1⟩

/-- C3: with zero configured review conditions, review_conditions_valid is
true (and raises nothing), whatever the revisions and their files. -/
theorem C3_no_conditions_always_valid (e : Editable)
    (h : e.review_conditions = []) :
    e.review_conditions_valid = some true := by
  unfold Editable.review_conditions_valid
  rw [h]
  rfl

/-- C3 witness: zero conditions with a file-carrying revision. -/
theorem C3_witness : c3Editable.review_conditions_valid = some true :=
  C3_no_conditions_always_valid c3Editable rfl

/-- C2 counterexample: with one configured condition and no non-undone
revision with files, the Python property dereferences None and raises
AttributeError (modelled: `none`); it does not return the `some false` that
the claimed empty-set fallback would produce. -/
theorem C2_counterexample_raises_instead_of_empty_set :
    c2Editable.review_conditions = [({1} : Finset Nat)] ∧
    c2Editable.latest_revision_with_files = none ∧
    c2Editable.review_conditions_valid = none ∧
    c2Editable.review_conditions_valid ≠ some false :=
  ⟨rfl, rfl, rfl, by decide⟩

/-- C2 amended: review_conditions_valid is total only away from the
missing-revision case: it returns true when no conditions are configured,
raises (none) when conditions are configured but no non-undone revision
with files exists, and otherwise tests that revision's file-type-id set
against the conditions. -/
theorem C2_amended_raises_when_no_revision_with_files (e : Editable) :
    (e.review_conditions = [] → e.review_conditions_valid = some true) ∧
    (e.review_conditions ≠ [] → e.latest_revision_with_files = none →
      e.review_conditions_valid = none) ∧
    (∀ rev, e.review_conditions ≠ [] → e.latest_revision_with_files = some rev →
      e.review_conditions_valid =
        some (e.review_conditions.any
          (fun cond => decide (cond ⊆ (rev.files.map (fun f => f.file_type_id)).toFinset)))) := by
  refine ⟨fun h => ?_, fun h hn => ?_, fun rev h hs => ?_⟩
  · unfold Editable.review_conditions_valid
    rw [h]
    rfl
  · unfold Editable.review_conditions_valid
    rw [hn]
    simp [h]
  · unfold Editable.review_conditions_valid
    rw [hs]
    simp [h]

/-- C2 amended witness: both the no-conditions case and the raising case at
concrete editables. -/
theorem C2_amended_witness :
    c3Editable.review_conditions_valid = some true ∧
    c2Editable.review_conditions_valid = none :=
  ⟨(C2_amended_raises_when_no_revision_with_files c3Editable).1 rfl,
   (C2_amended_raises_when_no_revision_with_files c2Editable).2.1 (by decide) rfl⟩

/-- C6: can_perform_editor_actions is false without timeline access; true
for the assigned editor holding editing_manager even with editing disabled;
and in every other situation it is true exactly when editing is enabled,
the user is the assigned editor and holds the type's editor permission. -/
theorem C6_editor_actions_characterization (e : Editable) (u : Nat) :
    (e.can_see_timeline u = false → e.can_perform_editor_actions u = false) ∧
    (e.editor = some u → e.event.can_manage u .editing_manager = true →
      e.can_perform_editor_actions u = true) ∧
    (¬(e.editor = some u ∧ e.event.can_manage u .editing_manager = true) →
      (e.can_perform_editor_actions u = true ↔
        e.settings.editing_enabled = true ∧ e.editor = some u ∧
        e.event.can_manage u e.type.editor_permission = true)) := by
  unfold Editable.can_perform_editor_actions Editable.can_see_timeline
    Editable.has_general_editor_permissions
  cases hed : e.editor == some u <;>
  cases hm : e.event.can_manage u .editing_manager <;>
  cases hp : e.event.can_manage u e.type.editor_permission <;>
  cases hen : e.settings.editing_enabled <;>
  cases hs : e.contribution.can_submit_proceedings u <;>
  cases ha : e.contribution.is_user_associated u <;>
    simp_all [beq_iff_eq]

/-- C6 witness: the three branches at concrete inputs — no timeline access,
manager-assigned-editor bypass with editing disabled, and the plain
assigned-editor case with editing enabled. -/
theorem C6_witness :
    c5Editable.can_perform_editor_actions 0 = false ∧
    c6Editable.can_perform_editor_actions 7 = true ∧
    c6bEditable.can_perform_editor_actions 7 = true :=
  ⟨(C6_editor_actions_characterization c5Editable 0).1 rfl,
   (C6_editor_actions_characterization c6Editable 7).2.1 rfl (by decide),
   ((C6_editor_actions_characterization c6bEditable 7).2.2 (by decide)).mpr
     ⟨rfl, rfl, by decide⟩⟩

/-- C7: can_assign_self is false whenever an editor is assigned and that
editor is the requesting user or the user cannot unassign them; in every
other situation it equals (type editor permission AND editing_enabled AND
self_assign_allowed) OR editing_manager. -/
theorem C7_can_assign_self_characterization (e : Editable) (u : Nat) :
    (e.editor.isSome = true → (e.editor = some u ∨ e.can_unassign u = false) →
      e.can_assign_self u = false) ∧
    (¬(e.editor.isSome = true ∧ (e.editor = some u ∨ e.can_unassign u = false)) →
      e.can_assign_self u =
        ((e.event.can_manage u e.type.editor_permission &&
          e.settings.editing_enabled && e.settings.self_assign_allowed) ||
         e.event.can_manage u .editing_manager)) := by
  constructor
  · intro hsome hor
    unfold Editable.can_assign_self
    rcases hor with h | h
    · simp [hsome, h]
    · simp [hsome, h]
  · intro hneg
    unfold Editable.can_assign_self
    cases hsome : e.editor.isSome
    · simp
    · cases hed : e.editor == some u
      · cases hun : e.can_unassign u
        · exact absurd ⟨hsome, Or.inr hun⟩ hneg
        · simp [hed, hun]
      · refine absurd ⟨hsome, Or.inl ?_⟩ hneg
        simpa [beq_iff_eq] using hed

/-- C7 witness: the assigned editor cannot self-assign again, and with no
editor assigned an editing manager can self-assign. -/
theorem C7_witness :
    c10Editable.can_assign_self 5 = false ∧
    c7Editable.can_assign_self 7 = true := by
  refine ⟨(C7_can_assign_self_characterization c10Editable 5).1 rfl (Or.inl rfl), ?_⟩
  rw [(C7_can_assign_self_characterization c7Editable 7).2 (by decide)]
  decide

/-- C8: with anonymous_team off, can_see_editor_names is true for every
user/actor pair; with it on, the result is true exactly when a given actor
themself cannot see editor names (one-hop recursion, no further actor) or
the user has general editor permissions. -/
theorem C8_editor_names_characterization (e : Editable) (u : Nat) (actor : Option Nat) :
    (e.settings.anonymous_team = false → e.can_see_editor_names u actor = true) ∧
    (e.settings.anonymous_team = true →
      (e.can_see_editor_names u actor = true ↔
        (∃ a, actor = some a ∧ e.can_see_editor_names a none = false) ∨
        e.has_general_editor_permissions u = true)) := by
  cases actor with
  | none =>
    constructor
    · intro h
      simp [Editable.can_see_editor_names, h]
    · intro h
      simp [Editable.can_see_editor_names, h]
  | some a =>
    constructor
    · intro h
      simp [Editable.can_see_editor_names, h]
    · intro h
      simp [Editable.can_see_editor_names, h]

/-- C8 witness: anonymous_team off gives true, and with it on the name of
an actor who cannot see editor names is revealed to a plain user. -/
theorem C8_witness :
    c5Editable.can_see_editor_names 0 (some 1) = true ∧
    c8Editable.can_see_editor_names 0 (some 1) = true := by
  refine ⟨(C8_editor_names_characterization c5Editable 0 (some 1)).1 rfl, ?_⟩
  refine ((C8_editor_names_characterization c8Editable 0 (some 1)).2 rfl).mpr
    (Or.inl ⟨1, rfl, ?_⟩)
  simp [Editable.can_see_editor_names, c8Editable, c8Settings, exEvent,
    Editable.has_general_editor_permissions]

/-- C9: can_perform_submitter_actions coincides with can_submit_proceedings
— the can_see_timeline guard is redundant since can_submit_proceedings is
one of the disjuncts of can_see_timeline. -/
theorem C9_submitter_actions_eq_can_submit (e : Editable) (u : Nat) :
    e.can_perform_submitter_actions u = e.contribution.can_submit_proceedings u ∧
    (e.contribution.can_submit_proceedings u = true → e.can_see_timeline u = true) := by
  unfold Editable.can_perform_submitter_actions Editable.can_see_timeline
  cases hs : e.contribution.can_submit_proceedings u <;>
    cases hg : e.has_general_editor_permissions u <;>
      cases ha : e.contribution.is_user_associated u <;> simp_all

/-- C9 witness: user 3 can submit proceedings, hence sees the timeline and
may perform submitter actions. -/
theorem C9_witness :
    c9Editable.can_perform_submitter_actions 3 = true ∧
    c9Editable.can_see_timeline 3 = true :=
  ⟨((C9_submitter_actions_eq_can_submit c9Editable 3).1).trans rfl,
   (C9_submitter_actions_eq_can_submit c9Editable 3).2 rfl⟩

/-- C10: whenever an editor is assigned and can_assign_self grants a user
the take-over, that user is not the assigned editor and can also unassign
the current editor. -/
theorem C10_takeover_implies_unassign (e : Editable) (u : Nat)
    (hsome : e.editor.isSome = true) (h : e.can_assign_self u = true) :
    e.editor ≠ some u ∧ e.can_unassign u = true := by
  unfold Editable.can_assign_self at h
  cases hed : e.editor == some u
  · cases hun : e.can_unassign u
    · simp [hsome, hed, hun] at h
    · exact ⟨fun hc => by simp [hc] at hed, rfl⟩
  · simp [hsome, hed] at h

/-- C10 witness: editing manager 7 may take over from assigned editor 5 and
indeed may unassign them. -/
theorem C10_witness :
    c10Editable.editor ≠ some 7 ∧ c10Editable.can_unassign 7 = true :=
  C10_takeover_implies_unassign c10Editable 7 rfl (by decide)
